import Mathlib

/-!
Verification of the pose-spatial-studio retargeting and streaming frontend.

Shallow embedding of:
  - `src/frontend/src/three/AvatarRenderer.tsx` (per-bone retargeting pipeline:
    visibility gate, leg Z negation, SLERP smoothing state, conjugation maps);
  - `src/frontend/src/hooks/useWebSocket.ts` (`pose_result` consumer);
  - `src/frontend/src/services/streamService.ts` (`StreamService.sendFrame`);
  - the frontend `App` component's `addStream`/`removeStream` stream registry.

Quaternion components are embedded as exact rationals; the spherical linear
interpolation routine of THREE.js (transcendental) is kept as an explicit
function parameter of the pipeline, so every theorem about the smoothing
structure quantifies over it.
-/

namespace PoseStudio

/-- Quaternion with rational components, mirroring `THREE.Quaternion` (x, y, z, w). -/
structure Quat where
  x : ℚ
  y : ℚ
  z : ℚ
  w : ℚ
  deriving DecidableEq, Repr

/-- The identity quaternion (no rotation). -/
def Quat.one : Quat := ⟨0, 0, 0, 1⟩

/-- Hamilton product, mirroring `THREE.Quaternion.multiplyQuaternions(a, b)`. -/
def Quat.mul (a b : Quat) : Quat :=
  ⟨ a.x * b.w + a.w * b.x + a.y * b.z - a.z * b.y,
    a.y * b.w + a.w * b.y + a.z * b.x - a.x * b.z,
    a.z * b.w + a.w * b.z + a.x * b.y - a.y * b.x,
    a.w * b.w - a.x * b.x - a.y * b.y - a.z * b.z ⟩

/-- `THREE.Quaternion.invert()` is the conjugate (valid for unit quaternions). -/
def Quat.conjugate (q : Quat) : Quat := ⟨-q.x, -q.y, -q.z, q.w⟩

/-- Squared norm of a quaternion. -/
def Quat.normSq (q : Quat) : ℚ := q.x * q.x + q.y * q.y + q.z * q.z + q.w * q.w

/-- 3-component vector (bone scale), mirroring `THREE.Vector3`. -/
structure Vec3 where
  x : ℚ
  y : ℚ
  z : ℚ
  deriving DecidableEq, Repr

/-- One entry of `UnifiedFKData` (`FKLandmark` in `types/pose.ts`): a rotation
quaternion plus a visibility score.  The renderer defensively checks
`jointData.visibility === undefined`, so visibility is embedded as an option. -/
structure FKLandmark where
  x : ℚ
  y : ℚ
  z : ℚ
  w : ℚ
  visibility : Option ℚ
  deriving DecidableEq, Repr

/-- `SMOOTHING_FACTOR = 0.3` from `AvatarRenderer.tsx`. -/
def SMOOTHING_FACTOR : ℚ := 3 / 10

/-- Default of the `visibilityThreshold` prop of `AvatarRenderer` (0.8). -/
def DEFAULT_VISIBILITY_THRESHOLD : ℚ := 8 / 10

/-- Modelled from the spec: `boneMapping.ts` (the `MIXAMO_BONES` name table) is code of
this repository missing from `src/`; only its importer `AvatarRenderer.tsx` is present.
The spec describes a Mixamo-style target rig and the changelog records the
`mixamorigHips` naming convention, so the bone identifiers are embedded as the
standard colon-free Mixamo bone names.  Only distinctness of the names matters to the
theorems below. -/
def MIXAMO_BONES.HIPS : String := "mixamorigHips"

def MIXAMO_BONES.NECK : String := "mixamorigNeck"

def MIXAMO_BONES.LEFT_SHOULDER : String := "mixamorigLeftShoulder"

def MIXAMO_BONES.RIGHT_SHOULDER : String := "mixamorigRightShoulder"

def MIXAMO_BONES.LEFT_ARM : String := "mixamorigLeftArm"

def MIXAMO_BONES.RIGHT_ARM : String := "mixamorigRightArm"

def MIXAMO_BONES.LEFT_FOREARM : String := "mixamorigLeftForeArm"

def MIXAMO_BONES.RIGHT_FOREARM : String := "mixamorigRightForeArm"

def MIXAMO_BONES.LEFT_HAND : String := "mixamorigLeftHand"

def MIXAMO_BONES.RIGHT_HAND : String := "mixamorigRightHand"

def MIXAMO_BONES.LEFT_UP_LEG : String := "mixamorigLeftUpLeg"

def MIXAMO_BONES.RIGHT_UP_LEG : String := "mixamorigRightUpLeg"

def MIXAMO_BONES.LEFT_LEG : String := "mixamorigLeftLeg"

def MIXAMO_BONES.RIGHT_LEG : String := "mixamorigRightLeg"

def MIXAMO_BONES.LEFT_FOOT : String := "mixamorigLeftFoot"

def MIXAMO_BONES.RIGHT_FOOT : String := "mixamorigRightFoot"

def MIXAMO_BONES.LEFT_TOE_BASE : String := "mixamorigLeftToeBase"

def MIXAMO_BONES.RIGHT_TOE_BASE : String := "mixamorigRightToeBase"

/-- `UNIFIED_JOINT_NAMES` from `types/pose.ts` (`src/unnamed/part_015`). -/
def UNIFIED_JOINT_NAMES : List String :=
  [ "hipCentre", "neck",
    "rightShoulder", "rightElbow", "rightWrist", "rightThumb", "rightIndex", "rightPinky",
    "leftShoulder", "leftElbow", "leftWrist", "leftThumb", "leftIndex", "leftPinky",
    "rightHip", "rightKnee", "rightAnkle", "rightToe",
    "leftHip", "leftKnee", "leftAnkle", "leftToe" ]

/-- Modelled from the spec: `boneMapping.ts` (`JOINT_TO_BONE_MAP`) is code of this
repository missing from `src/`.  Spec section 3 (RetargetMapping): "for each
UnifiedJoint name that drives a bone: target `boneName`"; the changelog describes
`boneMapping.ts` as "translating unified joint names to Mixamo bone hierarchy".
Shoulder joints drive the upper-arm bones (the shoulder-girdle bone is the
intermediate conjugation bone, per spec section 3), wrists drive hands, hips drive
the thigh (UpLeg) bones; finger landmarks drive no bone of their own.  The theorems
below depend only on generic properties of this map, never on a particular pair. -/
def JOINT_TO_BONE_MAP : String → Option String := fun j =>
  if j = "hipCentre" then some MIXAMO_BONES.HIPS
  else if j = "neck" then some MIXAMO_BONES.NECK
  else if j = "rightShoulder" then some MIXAMO_BONES.RIGHT_ARM
  else if j = "rightElbow" then some MIXAMO_BONES.RIGHT_FOREARM
  else if j = "rightWrist" then some MIXAMO_BONES.RIGHT_HAND
  else if j = "leftShoulder" then some MIXAMO_BONES.LEFT_ARM
  else if j = "leftElbow" then some MIXAMO_BONES.LEFT_FOREARM
  else if j = "leftWrist" then some MIXAMO_BONES.LEFT_HAND
  else if j = "rightHip" then some MIXAMO_BONES.RIGHT_UP_LEG
  else if j = "rightKnee" then some MIXAMO_BONES.RIGHT_LEG
  else if j = "rightAnkle" then some MIXAMO_BONES.RIGHT_FOOT
  else if j = "rightToe" then some MIXAMO_BONES.RIGHT_TOE_BASE
  else if j = "leftHip" then some MIXAMO_BONES.LEFT_UP_LEG
  else if j = "leftKnee" then some MIXAMO_BONES.LEFT_LEG
  else if j = "leftAnkle" then some MIXAMO_BONES.LEFT_FOOT
  else if j = "leftToe" then some MIXAMO_BONES.LEFT_TOE_BASE
  else none

/-- `INTERMEDIATE_BONE_MAP` from `AvatarRenderer.tsx` lines 20-28. -/
def INTERMEDIATE_BONE_MAP : List (String × String) :=
  [ (MIXAMO_BONES.LEFT_ARM, MIXAMO_BONES.LEFT_SHOULDER),
    (MIXAMO_BONES.LEFT_FOREARM, MIXAMO_BONES.LEFT_SHOULDER),
    (MIXAMO_BONES.RIGHT_ARM, MIXAMO_BONES.RIGHT_SHOULDER),
    (MIXAMO_BONES.RIGHT_FOREARM, MIXAMO_BONES.RIGHT_SHOULDER),
    (MIXAMO_BONES.LEFT_UP_LEG, MIXAMO_BONES.HIPS),
    (MIXAMO_BONES.RIGHT_UP_LEG, MIXAMO_BONES.HIPS) ]

/-- `WORLD_QUAT_CONJUGATION_BONES` from `AvatarRenderer.tsx` lines 32-36. -/
def WORLD_QUAT_CONJUGATION_BONES : List String :=
  [ MIXAMO_BONES.LEFT_LEG, MIXAMO_BONES.LEFT_FOOT, MIXAMO_BONES.LEFT_TOE_BASE,
    MIXAMO_BONES.RIGHT_LEG, MIXAMO_BONES.RIGHT_FOOT, MIXAMO_BONES.RIGHT_TOE_BASE,
    MIXAMO_BONES.LEFT_HAND, MIXAMO_BONES.RIGHT_HAND ]

/-- `LEG_Z_NEGATE_BONES` from `AvatarRenderer.tsx` lines 40-44. -/
def LEG_Z_NEGATE_BONES : List String :=
  [ MIXAMO_BONES.LEFT_UP_LEG, MIXAMO_BONES.RIGHT_UP_LEG,
    MIXAMO_BONES.LEFT_LEG, MIXAMO_BONES.LEFT_FOOT, MIXAMO_BONES.LEFT_TOE_BASE,
    MIXAMO_BONES.RIGHT_LEG, MIXAMO_BONES.RIGHT_FOOT, MIXAMO_BONES.RIGHT_TOE_BASE ]

/-- The target rig as captured at renderer initialization: the set of skeleton bone
names, each bone's ancestor chain (walked via parent pointers at initialization; listed
root first, up to but not including the bone itself), and the cached initial (T-pose)
local rotation and scale maps (`initialRotationsRef`/`initialScalesRef`, one entry per
skeleton bone). -/
structure Skeleton where
  bones : List String
  parentChain : String → List String
  rest : String → Option Quat
  restScale : String → Option Vec3

/-- `bones.get(boneName)` succeeds exactly for skeleton bones. -/
def Skeleton.hasBone (skel : Skeleton) (b : String) : Bool := skel.bones.contains b

/-- The parent T-pose world quaternion computed for each conjugation bone at
initialization (`AvatarRenderer.tsx` lines 146-156): the ancestor chain is collected
root-first (`unshift` during the bottom-up walk, skipping ancestors without a cached
initial rotation) and multiplied left-to-right onto the identity. -/
def restStep (g : String → Option Quat) (acc : Quat) (a : String) : Quat :=
  match g a with
  | some q => acc.mul q
  | none => acc

/-- The parent T-pose world quaternion computed for each conjugation bone at
initialization, continued: fold the chain left-to-right onto the identity. -/
def accumA (skel : Skeleton) (b : String) : Quat :=
  (skel.parentChain b).foldl (restStep skel.rest) Quat.one

/-- The `(inverse, rotation)` pair registered for a bone by the
`INTERMEDIATE_BONE_MAP` loop (`AvatarRenderer.tsx` lines 133-139): present when the
bone has an intermediate-bone entry whose initial rotation was captured. -/
def intermediateEntry (skel : Skeleton) (b : String) : Option (Quat × Quat) :=
  (INTERMEDIATE_BONE_MAP.lookup b).bind fun ib =>
    (skel.rest ib).map fun q => (q.conjugate, q)

/-- The final contents of `intermediateInverse`/`intermediateRotation` at a bone:
the `WORLD_QUAT_CONJUGATION_BONES` loop (lines 142-160) runs second and overwrites
(for bones present in the rig) whatever the intermediate-map loop stored. -/
def conjEntry (skel : Skeleton) (b : String) : Option (Quat × Quat) :=
  if b ∈ WORLD_QUAT_CONJUGATION_BONES ∧ skel.hasBone b = true then
    some ((accumA skel b).conjugate, accumA skel b)
  else intermediateEntry skel b

/-- The mutable per-bone scene state touched by the frame loop: the bone's current
local quaternion and scale. -/
structure BoneState where
  quat : Quat
  scale : Vec3
  deriving DecidableEq, Repr

/-- Leg-chain axis correction (`AvatarRenderer.tsx` lines 218-221): the incoming
quaternion with its Z component negated exactly for `LEG_Z_NEGATE_BONES` members. -/
def correctedTarget (b : String) (jd : FKLandmark) : Quat :=
  ⟨jd.x, jd.y, if b ∈ LEG_Z_NEGATE_BONES then -jd.z else jd.z, jd.w⟩

/-- SLERP smoothing step (`AvatarRenderer.tsx` lines 224-230): blend with the stored
previous quaternion at `SMOOTHING_FACTOR` when one exists, else take the target
verbatim.  `slerp` is THREE.js's spherical linear interpolation, kept abstract. -/
def smoothedOf (slerp : Quat → Quat → ℚ → Quat) (prev : Option Quat) (t : Quat) : Quat :=
  match prev with
  | some p => slerp p t SMOOTHING_FACTOR
  | none => t

/-- The validity gate of `AvatarRenderer.tsx` line 197: data present, visibility
defined, and visibility not below the threshold. -/
def jointValid (thr : ℚ) : Option FKLandmark → Bool
  | none => false
  | some jd =>
      match jd.visibility with
      | none => false
      | some v => decide (thr ≤ v)

/-- The reset-to-T-pose branch (`AvatarRenderer.tsx` lines 198-202 and 250-255):
copy the initial rotation and scale onto the bone when they were captured. -/
def restFallback (skel : Skeleton) (b : String) (st : BoneState) : BoneState :=
  let st1 := match skel.rest b with
    | some r => { st with quat := r }
    | none => st
  match skel.restScale b with
  | some sc => { st1 with scale := sc }
  | none => st1

/-- The per-bone body of the frame loop (`AvatarRenderer.tsx` lines 195-245), for a
bone present in the rig.  Returns the bone's new scene state and the new
`prevQuaternions` entry for the bone. -/
def updateBone (slerp : Quat → Quat → ℚ → Quat) (thr : ℚ) (skel : Skeleton)
    (b : String) (jd? : Option FKLandmark) (st : BoneState) (prev : Option Quat) :
    BoneState × Option Quat :=
  match jd? with
  | none => (restFallback skel b st, prev)
  | some jd =>
      match jd.visibility with
      | none => (restFallback skel b st, prev)
      | some v =>
          if v < thr then (restFallback skel b st, prev)
          else
            let sc := (skel.restScale b).getD ⟨1, 1, 1⟩
            let t := correctedTarget b jd
            let s := smoothedOf slerp prev t
            let q :=
              match conjEntry skel b, skel.rest b with
              | some (aInv, a), some r => ((aInv.mul s).mul a).mul r
              | none, some r => r.mul s
              | _, none => s
            ({ quat := q, scale := sc }, some s)

/-- The whole mutable state the frame loop reads and writes: bone scene states and the
`prevQuaternions` smoothing map. -/
structure FrameState where
  bones : String → BoneState
  prevQ : String → Option Quat

/-- One iteration of the joint loop (`AvatarRenderer.tsx` lines 188-246): skip joints
without a mapped bone and bones absent from the rig, else run `updateBone` and store
its results. -/
def processJoint (slerp : Quat → Quat → ℚ → Quat) (thr : ℚ) (skel : Skeleton)
    (fk : String → Option FKLandmark) (s : FrameState) (j : String) : FrameState :=
  match JOINT_TO_BONE_MAP j with
  | none => s
  | some b =>
      if skel.hasBone b then
        let r := updateBone slerp thr skel b (fk j) (s.bones b) (s.prevQ b)
        { bones := Function.update s.bones b r.1,
          prevQ := Function.update s.prevQ b r.2 }
      else s

/-- `mappedBones` (`AvatarRenderer.tsx` line 248): the set of bone names that some
joint drives. -/
def mappedBones : List String := UNIFIED_JOINT_NAMES.filterMap JOINT_TO_BONE_MAP

/-- The trailing loop of the frame callback (`AvatarRenderer.tsx` lines 249-256):
every rig bone not driven by a joint is pinned back to its T-pose rotation/scale. -/
def resetStep (skel : Skeleton) (acc : FrameState) (b : String) : FrameState :=
  if b ∈ mappedBones then acc
  else { acc with bones := Function.update acc.bones b (restFallback skel b (acc.bones b)) }

/-- The trailing loop of the frame callback, continued: fold `resetStep` over the
rig's bones. -/
def resetUnmapped (skel : Skeleton) (s : FrameState) : FrameState :=
  skel.bones.foldl (resetStep skel) s

/-- One full frame of the renderer given FK data (`useFrame` body after
initialization, root translation aside). -/
def processFrame (slerp : Quat → Quat → ℚ → Quat) (thr : ℚ) (skel : Skeleton)
    (fk : String → Option FKLandmark) (s : FrameState) : FrameState :=
  resetUnmapped skel (UNIFIED_JOINT_NAMES.foldl (processJoint slerp thr skel fk) s)

/-- `n` consecutive frames fed with the same FK data. -/
def runFrames (slerp : Quat → Quat → ℚ → Quat) (thr : ℚ) (skel : Skeleton)
    (fk : String → Option FKLandmark) : Nat → FrameState → FrameState
  | 0, s => s
  | n + 1, s => runFrames slerp thr skel fk n (processFrame slerp thr skel fk s)

/-- `RESULT_TIMEOUT_MS = 3000` from `useWebSocket.ts`. -/
def RESULT_TIMEOUT_MS : ℤ := 3000

/-- A `pose_result` event payload (`PoseResult` in `types/pose.ts`); frame and pose
data are opaque to the consumer logic verified here. -/
structure PoseResult where
  stream_id : String
  frame : String
  timestamp_ms : ℤ
  deriving DecidableEq, Repr

/-- The `useWebSocket` hook state relevant to result delivery: the `poseResults` map
and the `lastUpdateTime` ref. -/
structure WSState where
  poseResults : String → Option PoseResult
  lastUpdateTime : String → Option ℤ

/-- Consumer state before any result arrives. -/
def wsInit : WSState := ⟨fun _ => none, fun _ => none⟩

/-- The `pose_result` handler (`useWebSocket.ts` lines 49-66) at wall-clock time
`now`: drop results older than `RESULT_TIMEOUT_MS`, then drop results older than the
stream's last accepted timestamp; otherwise store the result and the timestamp.
Returns the new state and the accepted result, if any. -/
def wsStep (now : ℤ) (r : PoseResult) (s : WSState) : WSState × Option PoseResult :=
  let age := now - r.timestamp_ms
  if RESULT_TIMEOUT_MS < age then (s, none)
  else
    let lastTime := (s.lastUpdateTime r.stream_id).getD 0
    if lastTime ≤ r.timestamp_ms then
      ({ poseResults := Function.update s.poseResults r.stream_id (some r),
         lastUpdateTime := Function.update s.lastUpdateTime r.stream_id (some r.timestamp_ms) },
       some r)
    else (s, none)

/-- Run a trace of `pose_result` events (each tagged with its arrival wall-clock
time), collecting the accepted results in arrival order. -/
def wsRun : List (ℤ × PoseResult) → WSState → WSState × List PoseResult
  | [], s => (s, [])
  | (now, r) :: rest, s =>
      let step := wsStep now r s
      let tail := wsRun rest step.1
      (tail.1, step.2.toList ++ tail.2)

/-- The results a consumer of stream `sid` observes over a trace, in order. -/
def wsAccepted (events : List (ℤ × PoseResult)) (sid : String) : List PoseResult :=
  ((wsRun events wsInit).2).filter (fun r => r.stream_id == sid)

/-- `StreamService` (`streamService.ts`): per-stream frame sender with its
`lastSentTimestamp` guard. -/
structure StreamService where
  streamId : String
  lastSentTimestamp : ℤ
  deriving DecidableEq, Repr

/-- A `process_frame` socket event as emitted by `sendFrame`. -/
structure ProcessFrameEvent where
  stream_id : String
  frame : String
  timestamp_ms : ℤ
  deriving DecidableEq, Repr

/-- `StreamService.sendFrame` (`streamService.ts` lines 12-21): drop frames whose
timestamp is strictly behind `lastSentTimestamp`, else record the timestamp and emit
a `process_frame` event. -/
def StreamService.sendFrame (svc : StreamService) (frameData : String) (ts : ℤ) :
    StreamService × Option ProcessFrameEvent :=
  if ts < svc.lastSentTimestamp then (svc, none)
  else ({ svc with lastSentTimestamp := ts }, some ⟨svc.streamId, frameData, ts⟩)

/-- A fresh service for a stream (`lastSentTimestamp` initialized to 0). -/
def StreamService.make (sid : String) : StreamService := ⟨sid, 0⟩

/-- Run a sequence of `sendFrame` calls, collecting the emitted events in order. -/
def runSend : List (String × ℤ) → StreamService → StreamService × List ProcessFrameEvent
  | [], svc => (svc, [])
  | (f, ts) :: rest, svc =>
      let step := svc.sendFrame f ts
      let tail := runSend rest step.1
      (tail.1, step.2.toList ++ tail.2)

/-- One frontend stream registry entry (the `Stream` interface of the `App`
component, `src/unnamed/part_014`); fields other than `streamId` are opaque here. -/
structure Stream where
  streamId : String
  sourceType : String
  modelType : String
  active : Bool
  createdAt : ℤ
  deriving DecidableEq, Repr

/-- `addStream` (`src/unnamed/part_014` lines 272-287): reject a duplicate id
(returning `false` with the registry unchanged), else append the new stream and
return `true`. -/
def addStream (streams : List Stream) (streamId sourceType modelType : String)
    (now : ℤ) : Bool × List Stream :=
  if streams.any (fun s => s.streamId == streamId) then (false, streams)
  else (true, streams ++ [⟨streamId, sourceType, modelType, true, now⟩])

/-- `removeStream` (`src/unnamed/part_014`): drop every entry with the given id. -/
def removeStream (streams : List Stream) (streamId : String) : List Stream :=
  streams.filter (fun s => !(s.streamId == streamId))

/-- A registry operation performed by the `App` component. -/
inductive StreamOp where
  | add (streamId sourceType modelType : String) (now : ℤ)
  | remove (streamId : String)
  deriving DecidableEq, Repr

/-- Apply one registry operation. -/
def applyStreamOp (streams : List Stream) : StreamOp → List Stream
  | .add sid src mdl now => (addStream streams sid src mdl now).2
  | .remove sid => removeStream streams sid

/-- Run a sequence of registry operations from the initial empty registry state. -/
def runStreamOps (ops : List StreamOp) : List Stream :=
  ops.foldl applyStreamOp []

/-- A small concrete rig used to instantiate the theorems: hips, a left leg chain
and a left arm chain, all resting at the identity with unit scale. -/
def testSkel : Skeleton where
  bones :=
    [ MIXAMO_BONES.HIPS, MIXAMO_BONES.LEFT_UP_LEG, MIXAMO_BONES.LEFT_LEG,
      MIXAMO_BONES.LEFT_SHOULDER, MIXAMO_BONES.LEFT_ARM ]
  parentChain := fun b =>
    if b = MIXAMO_BONES.LEFT_LEG then [MIXAMO_BONES.HIPS, MIXAMO_BONES.LEFT_UP_LEG]
    else if b = MIXAMO_BONES.LEFT_UP_LEG then [MIXAMO_BONES.HIPS]
    else if b = MIXAMO_BONES.LEFT_ARM then [MIXAMO_BONES.HIPS, MIXAMO_BONES.LEFT_SHOULDER]
    else []
  rest := fun _ => some Quat.one
  restScale := fun _ => some ⟨1, 1, 1⟩

/-- A degenerate interpolation function (always keeps the first argument), used to
instantiate the slerp parameter in concrete witnesses. -/
def slerpKeep : Quat → Quat → ℚ → Quat := fun p _ _ => p

/-! Basic quaternion algebra facts used by the retargeting proofs. -/

theorem quat_mul_one (q : Quat) : q.mul Quat.one = q := by
  cases q
  simp [Quat.mul, Quat.one]

theorem quat_one_mul (q : Quat) : Quat.one.mul q = q := by
  cases q
  simp [Quat.mul, Quat.one]

theorem quat_normSq_mul (a b : Quat) : (a.mul b).normSq = a.normSq * b.normSq := by
  cases a
  cases b
  simp only [Quat.mul, Quat.normSq]
  ring

theorem quat_conj_mul (q : Quat) : q.conjugate.mul q = ⟨0, 0, 0, q.normSq⟩ := by
  cases q
  simp only [Quat.conjugate, Quat.mul, Quat.normSq, Quat.mk.injEq]
  refine ⟨by ring, by ring, by ring, by ring⟩

theorem quat_conj_mul_of_unit (q : Quat) (h : q.normSq = 1) :
    q.conjugate.mul q = Quat.one := by
  rw [quat_conj_mul, h]
  rfl

/-- The accumulated ancestor rotation of a rig with unit rest rotations is unit. -/
theorem accumA_normSq (skel : Skeleton)
    (hunit : ∀ a q, skel.rest a = some q → q.normSq = 1) (b : String) :
    (accumA skel b).normSq = 1 := by
  unfold accumA
  generalize skel.parentChain b = l
  have step : ∀ (l : List String) (acc : Quat), acc.normSq = 1 →
      (l.foldl (restStep skel.rest) acc).normSq = 1 := by
    intro l
    induction l with
    | nil => intro acc h; simpa using h
    | cons a l ih =>
        intro acc h
        simp only [List.foldl_cons]
        cases ha : skel.rest a with
        | none => simpa [restStep, ha] using ih acc h
        | some q =>
            have hq := hunit a q ha
            have hmul : (acc.mul q).normSq = 1 := by rw [quat_normSq_mul, h, hq, one_mul]
            simpa [restStep, ha] using ih (acc.mul q) hmul
  exact step l Quat.one (by norm_num [Quat.normSq, Quat.one])

/-- Every `(inverse, rotation)` pair registered in the conjugation maps is a
conjugate pair, and the rotation is unit when the rig's rest rotations are. -/
theorem conjEntry_spec (skel : Skeleton)
    (hunit : ∀ a q, skel.rest a = some q → q.normSq = 1) (b : String) (p a : Quat)
    (h : conjEntry skel b = some (p, a)) : p = a.conjugate ∧ a.normSq = 1 := by
  unfold conjEntry at h
  split at h
  · have hpq := (Prod.mk.injEq _ _ _ _).mp (Option.some.inj h)
    refine ⟨by rw [← hpq.1, ← hpq.2], ?_⟩
    rw [← hpq.2]
    exact accumA_normSq skel hunit b
  · unfold intermediateEntry at h
    cases hl : INTERMEDIATE_BONE_MAP.lookup b with
    | none => rw [hl] at h; cases h
    | some ib =>
        rw [hl] at h
        simp only [Option.some_bind] at h
        cases hr : skel.rest ib with
        | none => rw [hr] at h; cases h
        | some q =>
            rw [hr] at h
            simp only [Option.map_some'] at h
            have hpq := (Prod.mk.injEq _ _ _ _).mp (Option.some.inj h)
            exact ⟨by rw [← hpq.1, ← hpq.2], by rw [← hpq.2]; exact hunit ib q hr⟩

/-- Unfolding of the valid path of `updateBone`. -/
theorem updateBone_valid (slerp : Quat → Quat → ℚ → Quat) (thr : ℚ) (skel : Skeleton)
    (b : String) (jd : FKLandmark) (v : ℚ) (st : BoneState) (prev : Option Quat)
    (hvis : jd.visibility = some v) (hv : thr ≤ v) :
    updateBone slerp thr skel b (some jd) st prev =
      ({ quat :=
          match conjEntry skel b, skel.rest b with
          | some (aInv, a), some r =>
              ((aInv.mul (smoothedOf slerp prev (correctedTarget b jd))).mul a).mul r
          | none, some r => r.mul (smoothedOf slerp prev (correctedTarget b jd))
          | _, none => smoothedOf slerp prev (correctedTarget b jd),
         scale := (skel.restScale b).getD ⟨1, 1, 1⟩ },
       some (smoothedOf slerp prev (correctedTarget b jd))) := by
  simp only [updateBone, hvis, if_neg (not_lt.mpr hv)]

/-- Unfolding of the invalid path of `updateBone`. -/
theorem updateBone_invalid (slerp : Quat → Quat → ℚ → Quat) (thr : ℚ) (skel : Skeleton)
    (b : String) (jd? : Option FKLandmark) (st : BoneState) (prev : Option Quat)
    (h : jointValid thr jd? = false) :
    updateBone slerp thr skel b jd? st prev = (restFallback skel b st, prev) := by
  match jd? with
  | none => rfl
  | some jd =>
      match hvis : jd.visibility with
      | none => simp only [updateBone, hvis]
      | some v =>
          have hlt : v < thr := by
            simp only [jointValid, hvis, decide_eq_false_iff_not, not_le] at h
            exact h
          simp only [updateBone, hvis, if_pos hlt]

/-- C5: with the driving joint's data missing, visibility undefined, or visibility
below the threshold, `updateBone` resets the bone to its captured rest rotation and
scale and leaves the smoothing entry alone; the update is a total function (no
exception path exists), it is applied bone by bone, and a joint's iteration of the
frame loop touches no other bone's state, so bones with valid joints are still
updated normally.  The default threshold is 0.8. -/
theorem c5_per_bone_fallback :
    DEFAULT_VISIBILITY_THRESHOLD = 8 / 10
    ∧ (∀ (slerp : Quat → Quat → ℚ → Quat) (thr : ℚ) (skel : Skeleton) (b : String)
         (jd? : Option FKLandmark) (st : BoneState) (prev : Option Quat),
         jointValid thr jd? = false →
           updateBone slerp thr skel b jd? st prev = (restFallback skel b st, prev))
    ∧ (∀ (skel : Skeleton) (b : String) (r : Quat) (sc : Vec3) (st : BoneState),
         skel.rest b = some r → skel.restScale b = some sc →
           restFallback skel b st = ⟨r, sc⟩)
    ∧ (∀ (slerp : Quat → Quat → ℚ → Quat) (thr : ℚ) (skel : Skeleton)
         (fk : String → Option FKLandmark) (s : FrameState) (j b c : String),
         JOINT_TO_BONE_MAP j = some b → c ≠ b →
           (processJoint slerp thr skel fk s j).bones c = s.bones c
           ∧ (processJoint slerp thr skel fk s j).prevQ c = s.prevQ c)
    ∧ (∀ (slerp : Quat → Quat → ℚ → Quat) (thr : ℚ) (skel : Skeleton)
         (fk : String → Option FKLandmark) (s : FrameState) (j b : String),
         JOINT_TO_BONE_MAP j = some b → skel.hasBone b = true →
           (processJoint slerp thr skel fk s j).bones b =
             (updateBone slerp thr skel b (fk j) (s.bones b) (s.prevQ b)).1) := by
  refine ⟨rfl, ?_, ?_, ?_, ?_⟩
  · intro slerp thr skel b jd? st prev h
    exact updateBone_invalid slerp thr skel b jd? st prev h
  · intro skel b r sc st hr hsc
    simp [restFallback, hr, hsc]
  · intro slerp thr skel fk s j b c hmap hne
    simp only [processJoint, hmap]
    by_cases hrig : skel.hasBone b
    · simp [hrig, Function.update_apply, if_neg hne]
    · simp [hrig]
  · intro slerp thr skel fk s j b hmap hrig
    simp [processJoint, hmap, hrig]

/-- Witness for C5 at a concrete low-visibility landmark. -/
theorem c5_witness :
    updateBone (fun p _ _ => p) DEFAULT_VISIBILITY_THRESHOLD testSkel MIXAMO_BONES.HIPS
        (some ⟨1, 0, 0, 0, some (1 / 2)⟩) ⟨⟨1, 0, 0, 0⟩, ⟨2, 2, 2⟩⟩ (some ⟨1, 0, 0, 0⟩) =
      (⟨Quat.one, ⟨1, 1, 1⟩⟩, some ⟨1, 0, 0, 0⟩) := by
  have h := c5_per_bone_fallback.2.1 (fun p _ _ => p) DEFAULT_VISIBILITY_THRESHOLD testSkel
    MIXAMO_BONES.HIPS (some ⟨1, 0, 0, 0, some (1 / 2)⟩) ⟨⟨1, 0, 0, 0⟩, ⟨2, 2, 2⟩⟩
    (some ⟨1, 0, 0, 0⟩) (by norm_num [jointValid, DEFAULT_VISIBILITY_THRESHOLD])
  rw [h]
  decide

/-- C6: each frame, a bone with valid joint data stores, as its new
`previousQuaternion`, the spherical-linear blend of the stored previous quaternion
toward the new (axis-corrected) quaternion at the fixed factor `SMOOTHING_FACTOR`
(0.3); with no stored previous quaternion the new value is taken unblended. -/
theorem c6_slerp_smoothing (slerp : Quat → Quat → ℚ → Quat) (thr : ℚ) (skel : Skeleton)
    (b : String) (jd : FKLandmark) (v : ℚ) (st : BoneState) (prev : Option Quat)
    (hvis : jd.visibility = some v) (hv : thr ≤ v) :
    SMOOTHING_FACTOR = 3 / 10
    ∧ (∀ p, prev = some p →
        (updateBone slerp thr skel b (some jd) st prev).2 =
          some (slerp p (correctedTarget b jd) SMOOTHING_FACTOR))
    ∧ (prev = none →
        (updateBone slerp thr skel b (some jd) st prev).2 =
          some (correctedTarget b jd)) := by
  rw [updateBone_valid slerp thr skel b jd v st prev hvis hv]
  refine ⟨rfl, ?_, ?_⟩
  · intro p hp
    subst hp
    rfl
  · intro hp
    subst hp
    rfl

/-- Witness for C6 at a concrete valid landmark with a stored previous quaternion. -/
theorem c6_witness :
    (updateBone slerpKeep DEFAULT_VISIBILITY_THRESHOLD testSkel MIXAMO_BONES.HIPS
        (some ⟨1, 2, 3, 4, some 1⟩) ⟨Quat.one, ⟨1, 1, 1⟩⟩ (some ⟨0, 1, 0, 0⟩)).2 =
      some (slerpKeep ⟨0, 1, 0, 0⟩
        (correctedTarget MIXAMO_BONES.HIPS ⟨1, 2, 3, 4, some 1⟩) SMOOTHING_FACTOR) :=
  (c6_slerp_smoothing slerpKeep DEFAULT_VISIBILITY_THRESHOLD testSkel MIXAMO_BONES.HIPS
    ⟨1, 2, 3, 4, some 1⟩ 1 ⟨Quat.one, ⟨1, 1, 1⟩⟩ (some ⟨0, 1, 0, 0⟩) rfl
    (by norm_num [DEFAULT_VISIBILITY_THRESHOLD])).2.1 ⟨0, 1, 0, 0⟩ rfl

/-- C7: the Z component of the incoming quaternion is negated exactly for the
members of the static `LEG_Z_NEGATE_BONES` set, which consists of precisely the left
and right thigh (UpLeg), shin (Leg), Foot and ToeBase bones; for every bone outside
that set the Z component is passed through unchanged.  The set is a module-level
constant, so membership cannot depend on runtime data. -/
theorem c7_leg_z_negation (slerp : Quat → Quat → ℚ → Quat) (thr : ℚ) (skel : Skeleton)
    (b : String) (jd : FKLandmark) (v : ℚ) (st : BoneState)
    (hvis : jd.visibility = some v) (hv : thr ≤ v) :
    (b ∈ LEG_Z_NEGATE_BONES →
      (updateBone slerp thr skel b (some jd) st none).2 = some ⟨jd.x, jd.y, -jd.z, jd.w⟩)
    ∧ (b ∉ LEG_Z_NEGATE_BONES →
      (updateBone slerp thr skel b (some jd) st none).2 = some ⟨jd.x, jd.y, jd.z, jd.w⟩)
    ∧ (b ∈ LEG_Z_NEGATE_BONES ↔
        b = "mixamorigLeftUpLeg" ∨ b = "mixamorigRightUpLeg" ∨ b = "mixamorigLeftLeg"
        ∨ b = "mixamorigLeftFoot" ∨ b = "mixamorigLeftToeBase" ∨ b = "mixamorigRightLeg"
        ∨ b = "mixamorigRightFoot" ∨ b = "mixamorigRightToeBase") := by
  rw [updateBone_valid slerp thr skel b jd v st none hvis hv]
  refine ⟨?_, ?_, ?_⟩
  · intro hmem
    simp [smoothedOf, correctedTarget, if_pos hmem]
  · intro hmem
    simp [smoothedOf, correctedTarget, if_neg hmem]
  · simp [LEG_Z_NEGATE_BONES, MIXAMO_BONES.LEFT_UP_LEG, MIXAMO_BONES.RIGHT_UP_LEG,
      MIXAMO_BONES.LEFT_LEG, MIXAMO_BONES.LEFT_FOOT, MIXAMO_BONES.LEFT_TOE_BASE,
      MIXAMO_BONES.RIGHT_LEG, MIXAMO_BONES.RIGHT_FOOT, MIXAMO_BONES.RIGHT_TOE_BASE]

/-- Witness for C7 at the left thigh bone. -/
theorem c7_witness :
    (updateBone slerpKeep DEFAULT_VISIBILITY_THRESHOLD testSkel MIXAMO_BONES.LEFT_UP_LEG
        (some ⟨1, 2, 3, 4, some 1⟩) ⟨Quat.one, ⟨1, 1, 1⟩⟩ none).2 = some ⟨1, 2, -3, 4⟩ :=
  (c7_leg_z_negation slerpKeep DEFAULT_VISIBILITY_THRESHOLD testSkel
    MIXAMO_BONES.LEFT_UP_LEG ⟨1, 2, 3, 4, some 1⟩ 1 ⟨Quat.one, ⟨1, 1, 1⟩⟩ rfl
    (by norm_num [DEFAULT_VISIBILITY_THRESHOLD])).1 (by decide)

/-- C8: a delivered result whose age strictly exceeds `RESULT_TIMEOUT_MS` (3000 ms)
is discarded before any state update: the handler returns the state unchanged and
accepts nothing, so the result map and the last-update bookkeeping are untouched. -/
theorem c8_stale_result_discarded (now : ℤ) (r : PoseResult) (s : WSState)
    (h : RESULT_TIMEOUT_MS < now - r.timestamp_ms) :
    RESULT_TIMEOUT_MS = 3000 ∧ wsStep now r s = (s, none) :=
  ⟨rfl, by simp [wsStep, if_pos h]⟩

/-- Witness for C8: a result 5000 ms old is dropped from the initial state. -/
theorem c8_witness :
    RESULT_TIMEOUT_MS = 3000 ∧ wsStep 5000 ⟨"s1", "f", 0⟩ wsInit = (wsInit, none) :=
  c8_stale_result_discarded 5000 ⟨"s1", "f", 0⟩ wsInit (by decide)

/-- Emitted `process_frame` events of any call sequence carry non-decreasing
timestamps, and every event's timestamp is at least the service's starting
`lastSentTimestamp`. -/
theorem runSend_mono (calls : List (String × ℤ)) :
    ∀ (svc : StreamService),
      List.Chain' (fun a b => a.timestamp_ms ≤ b.timestamp_ms) (runSend calls svc).2
      ∧ ∀ e ∈ (runSend calls svc).2, svc.lastSentTimestamp ≤ e.timestamp_ms := by
  induction calls with
  | nil => intro svc; exact ⟨List.chain'_nil, by simp [runSend]⟩
  | cons c rest ih =>
      intro svc
      obtain ⟨f, ts⟩ := c
      by_cases h : ts < svc.lastSentTimestamp
      · have hstep : svc.sendFrame f ts = (svc, none) := by
          simp [StreamService.sendFrame, if_pos h]
        constructor
        · simpa [runSend, hstep] using (ih svc).1
        · intro e he
          exact (ih svc).2 e (by simpa [runSend, hstep] using he)
      · have hstep : svc.sendFrame f ts =
            ({ svc with lastSentTimestamp := ts }, some ⟨svc.streamId, f, ts⟩) := by
          simp [StreamService.sendFrame, if_neg h]
        have ih2 := ih { svc with lastSentTimestamp := ts }
        have hlist : (runSend ((f, ts) :: rest) svc).2 =
            ⟨svc.streamId, f, ts⟩ :: (runSend rest { svc with lastSentTimestamp := ts }).2 := by
          simp [runSend, hstep]
        rw [hlist]
        constructor
        · refine List.chain'_cons'.mpr ⟨?_, ih2.1⟩
          intro e he
          exact ih2.2 e (List.mem_of_mem_head? he)
        · intro e he
          rcases List.mem_cons.mp he with h1 | h1
          · rw [h1]
            exact le_of_not_lt h
          · exact le_trans (le_of_not_lt h) (ih2.2 e h1)

/-- C10: a `sendFrame` call with a timestamp strictly below `lastSentTimestamp` is
silently dropped (no event, state unchanged), and consequently the `process_frame`
events emitted over any call sequence from a fresh service carry non-decreasing
`timestamp_ms` values. -/
theorem c10_send_frame_monotonic :
    (∀ (svc : StreamService) (f : String) (ts : ℤ), ts < svc.lastSentTimestamp →
        svc.sendFrame f ts = (svc, none))
    ∧ ∀ (calls : List (String × ℤ)) (sid : String),
        List.Chain' (fun a b => a.timestamp_ms ≤ b.timestamp_ms)
          (runSend calls (StreamService.make sid)).2 := by
  constructor
  · intro svc f ts h
    simp [StreamService.sendFrame, if_pos h]
  · intro calls sid
    exact (runSend_mono calls (StreamService.make sid)).1

/-- Witness for C10: a frame 50 ms behind the last sent frame is dropped. -/
theorem c10_witness :
    StreamService.sendFrame ⟨"s1", 100⟩ "f" 50 = (⟨"s1", 100⟩, none) :=
  c10_send_frame_monotonic.1 ⟨"s1", 100⟩ "f" 50 (by decide)

/-- Folding `restStep` is the same as multiplying out the present rest rotations in
order. -/
theorem foldl_restStep_filterMap (g : String → Option Quat) (l : List String) :
    ∀ acc : Quat, l.foldl (restStep g) acc = (l.filterMap g).foldl Quat.mul acc := by
  induction l with
  | nil => intro acc; rfl
  | cons a l ih =>
      intro acc
      cases hg : g a with
      | none => simp [List.filterMap_cons, hg, restStep, ih]
      | some q => simp [List.filterMap_cons, hg, restStep, ih]

/-- C2: for a bone in the world-quaternion conjugation set that is present in the
rig, the precomputed conjugation entry is the pair (inverse of A, A) for A the
accumulated ancestor rest rotation; A is the product, in root-to-parent order, of
the ancestors' initial local rotations (the bone itself excluded); and the bone's
final local rotation is inverse(A) * q * A * rest, where q is the bone's processed
(axis-corrected, smoothed) joint quaternion entering the conjugation step. -/
theorem c2_world_conjugation (slerp : Quat → Quat → ℚ → Quat) (thr : ℚ)
    (skel : Skeleton) (b : String) (jd : FKLandmark) (v : ℚ) (st : BoneState)
    (prev : Option Quat) (r : Quat)
    (hb : b ∈ WORLD_QUAT_CONJUGATION_BONES) (hrig : skel.hasBone b = true)
    (hr : skel.rest b = some r) (hvis : jd.visibility = some v) (hv : thr ≤ v) :
    conjEntry skel b = some ((accumA skel b).conjugate, accumA skel b)
    ∧ (updateBone slerp thr skel b (some jd) st prev).1.quat =
        (((accumA skel b).conjugate.mul
            (smoothedOf slerp prev (correctedTarget b jd))).mul (accumA skel b)).mul r
    ∧ accumA skel b = ((skel.parentChain b).filterMap skel.rest).foldl Quat.mul Quat.one := by
  have hce : conjEntry skel b = some ((accumA skel b).conjugate, accumA skel b) := by
    simp [conjEntry, if_pos (And.intro hb hrig)]
  refine ⟨hce, ?_, ?_⟩
  · rw [updateBone_valid slerp thr skel b jd v st prev hvis hv]
    simp only [hce, hr]
  · exact foldl_restStep_filterMap skel.rest (skel.parentChain b) Quat.one

/-- Witness for C2 at the left shin bone of the concrete rig. -/
theorem c2_witness :
    (updateBone slerpKeep DEFAULT_VISIBILITY_THRESHOLD testSkel MIXAMO_BONES.LEFT_LEG
        (some ⟨1, 2, 3, 4, some 1⟩) ⟨Quat.one, ⟨1, 1, 1⟩⟩ none).1.quat =
      (((accumA testSkel MIXAMO_BONES.LEFT_LEG).conjugate.mul
          (smoothedOf slerpKeep none
            (correctedTarget MIXAMO_BONES.LEFT_LEG ⟨1, 2, 3, 4, some 1⟩))).mul
        (accumA testSkel MIXAMO_BONES.LEFT_LEG)).mul Quat.one :=
  (c2_world_conjugation slerpKeep DEFAULT_VISIBILITY_THRESHOLD testSkel
    MIXAMO_BONES.LEFT_LEG ⟨1, 2, 3, 4, some 1⟩ 1 ⟨Quat.one, ⟨1, 1, 1⟩⟩ none Quat.one
    (by decide) (by decide) rfl rfl (by norm_num [DEFAULT_VISIBILITY_THRESHOLD])).2.1

/-- One registry operation keeps stream ids pairwise distinct. -/
theorem applyStreamOp_nodup (streams : List Stream) (op : StreamOp)
    (h : (streams.map (fun s => s.streamId)).Nodup) :
    ((applyStreamOp streams op).map (fun s => s.streamId)).Nodup := by
  cases op with
  | add sid src mdl now =>
      simp only [applyStreamOp, addStream]
      by_cases hdup : streams.any (fun s => s.streamId == sid) = true
      · simpa [hdup] using h
      · simp only [hdup, Bool.false_eq_true, if_false]
        rw [List.map_append]
        refine List.Nodup.append h (by simp) ?_
        intro x hx hx2
        simp only [List.map_cons, List.map_nil, List.mem_singleton] at hx2
        obtain ⟨s, hs, hid⟩ := List.mem_map.mp hx
        exact hdup (List.any_eq_true.mpr ⟨s, hs, beq_iff_eq.mpr (by rw [hid, hx2])⟩)
  | remove sid =>
      simp only [applyStreamOp, removeStream]
      exact h.sublist ((List.filter_sublist streams).map _)

/-- Stream ids stay pairwise distinct over any operation sequence from the empty
registry. -/
theorem runStreamOps_nodup (ops : List StreamOp) :
    ((runStreamOps ops).map (fun s => s.streamId)).Nodup := by
  suffices h : ∀ (l : List Stream), (l.map fun s => s.streamId).Nodup →
      ((ops.foldl applyStreamOp l).map fun s => s.streamId).Nodup by
    exact h [] (by simp)
  induction ops with
  | nil => intro l h; simpa using h
  | cons op rest ih =>
      intro l h
      simp only [List.foldl_cons]
      exact ih _ (applyStreamOp_nodup l op h)

/-- C9: creating a stream whose id matches a live stream fails (`addStream` returns
`false`) and leaves the registry exactly as it was; consequently, over any sequence
of add/remove operations, at most one live stream exists per id. -/
theorem c9_duplicate_stream_rejected :
    (∀ (streams : List Stream) (sid src mdl : String) (now : ℤ),
        (∃ s ∈ streams, s.streamId = sid) →
          addStream streams sid src mdl now = (false, streams))
    ∧ ∀ ops : List StreamOp, ((runStreamOps ops).map (fun s => s.streamId)).Nodup := by
  constructor
  · rintro streams sid src mdl now ⟨s, hs, hid⟩
    have hdup : streams.any (fun s => s.streamId == sid) = true :=
      List.any_eq_true.mpr ⟨s, hs, beq_iff_eq.mpr hid⟩
    simp [addStream, hdup]
  · exact runStreamOps_nodup

/-- Witness for C9: re-adding a live id is rejected with the registry unchanged. -/
theorem c9_witness :
    addStream [⟨"a", "camera", "mediapipe", true, 0⟩] "a" "video" "rtmpose" 5 =
      (false, [⟨"a", "camera", "mediapipe", true, 0⟩]) :=
  c9_duplicate_stream_rejected.1 [⟨"a", "camera", "mediapipe", true, 0⟩] "a" "video"
    "rtmpose" 5 ⟨⟨"a", "camera", "mediapipe", true, 0⟩, by simp, rfl⟩

/-- Results accepted for one stream over any event trace have non-decreasing
timestamps, and every accepted timestamp dominates the starting last-update entry. -/
theorem wsRun_chain (events : List (ℤ × PoseResult)) :
    ∀ (s : WSState) (sid : String),
      List.Chain' (fun a b => a.timestamp_ms ≤ b.timestamp_ms)
        ((wsRun events s).2.filter (fun r => r.stream_id == sid))
      ∧ ∀ r ∈ (wsRun events s).2.filter (fun r => r.stream_id == sid),
          (s.lastUpdateTime sid).getD 0 ≤ r.timestamp_ms := by
  induction events with
  | nil => intro s sid; exact ⟨List.chain'_nil, by simp [wsRun]⟩
  | cons ev rest ih =>
      intro s sid
      obtain ⟨now, r⟩ := ev
      by_cases h1 : RESULT_TIMEOUT_MS < now - r.timestamp_ms
      · have hstep : wsStep now r s = (s, none) := by simp [wsStep, if_pos h1]
        constructor
        · simpa [wsRun, hstep] using (ih s sid).1
        · intro x hx
          exact (ih s sid).2 x (by simpa [wsRun, hstep] using hx)
      · by_cases h2 : (s.lastUpdateTime r.stream_id).getD 0 ≤ r.timestamp_ms
        · have hstep : wsStep now r s =
              ({ poseResults := Function.update s.poseResults r.stream_id (some r),
                 lastUpdateTime :=
                   Function.update s.lastUpdateTime r.stream_id (some r.timestamp_ms) },
               some r) := by
            simp [wsStep, if_neg h1, if_pos h2]
          have hlist : (wsRun ((now, r) :: rest) s).2 =
              r :: (wsRun rest (wsStep now r s).1).2 := by
            simp [wsRun, hstep]
          have hlast : ∀ x : WSState, x = (wsStep now r s).1 →
              x.lastUpdateTime =
                Function.update s.lastUpdateTime r.stream_id (some r.timestamp_ms) := by
            intro x hx
            rw [hx, hstep]
          rw [hlist]
          by_cases h3 : r.stream_id = sid
          · have hkey : ((wsStep now r s).1.lastUpdateTime sid).getD 0 = r.timestamp_ms := by
              rw [hlast _ rfl, ← h3, Function.update_same]
              rfl
            have hfilter : (r :: (wsRun rest (wsStep now r s).1).2).filter
                  (fun x => x.stream_id == sid) =
                r :: ((wsRun rest (wsStep now r s).1).2.filter fun x => x.stream_id == sid) := by
              simp [List.filter_cons, beq_iff_eq.mpr h3]
            rw [hfilter]
            constructor
            · refine List.chain'_cons'.mpr ⟨?_, (ih (wsStep now r s).1 sid).1⟩
              intro y hy
              have hmem := List.mem_of_mem_head? hy
              have hge := (ih (wsStep now r s).1 sid).2 y hmem
              rwa [hkey] at hge
            · intro x hx
              rcases List.mem_cons.mp hx with hx1 | hx1
              · rw [hx1, ← h3]
                exact h2
              · have hge := (ih (wsStep now r s).1 sid).2 x hx1
                rw [hkey] at hge
                exact le_trans (h3 ▸ h2) hge
          · have hkey : (wsStep now r s).1.lastUpdateTime sid = s.lastUpdateTime sid := by
              rw [hlast _ rfl]
              exact Function.update_noteq (fun hq => h3 hq.symm) _ _
            have hfilter : (r :: (wsRun rest (wsStep now r s).1).2).filter
                  (fun x => x.stream_id == sid) =
                (wsRun rest (wsStep now r s).1).2.filter fun x => x.stream_id == sid := by
              simp [List.filter_cons, beq_eq_false_iff_ne.mpr h3]
            rw [hfilter]
            constructor
            · exact (ih (wsStep now r s).1 sid).1
            · intro x hx
              have hge := (ih (wsStep now r s).1 sid).2 x hx
              rwa [hkey] at hge
        · have hstep : wsStep now r s = (s, none) := by
            simp [wsStep, if_neg h1, if_neg h2]
          constructor
          · simpa [wsRun, hstep] using (ih s sid).1
          · intro x hx
            exact (ih s sid).2 x (by simpa [wsRun, hstep] using hx)

/-- C3: per stream, observed results have non-decreasing capture timestamps over any
`pose_result` trace from the initial consumer state, and an event whose timestamp is
strictly below the stream's recorded last accepted timestamp is rejected with the
state unchanged (never stored, never observed). -/
theorem c3_monotonic_delivery :
    (∀ (events : List (ℤ × PoseResult)) (sid : String),
        List.Chain' (fun a b => a.timestamp_ms ≤ b.timestamp_ms) (wsAccepted events sid))
    ∧ ∀ (now : ℤ) (r : PoseResult) (s : WSState) (t : ℤ),
        s.lastUpdateTime r.stream_id = some t → r.timestamp_ms < t →
          wsStep now r s = (s, none) := by
  constructor
  · intro events sid
    exact (wsRun_chain events wsInit sid).1
  · intro now r s t hlast hlt
    by_cases h1 : RESULT_TIMEOUT_MS < now - r.timestamp_ms
    · simp [wsStep, if_pos h1]
    · have h2 : ¬ (s.lastUpdateTime r.stream_id).getD 0 ≤ r.timestamp_ms := by
        rw [hlast]
        simpa using not_le.mpr hlt
      simp [wsStep, if_neg h1, if_neg h2]

/-- A concrete consumer state whose stream "s1" has already accepted a result
timestamped 200. -/
def wsTestState : WSState := ⟨fun _ => none, fun _ => some 200⟩

/-- Witness for C3: a fresh-but-older result (timestamp 150 against a stored 200) is
rejected with the state unchanged. -/
theorem c3_witness :
    wsStep 210 ⟨"s1", "f", 150⟩ wsTestState = (wsTestState, none) :=
  c3_monotonic_delivery.2 210 ⟨"s1", "f", 150⟩ wsTestState 200 rfl (by decide)

/-- A per-bone run of the frame loop body over a sequence of joint observations,
threading the bone scene state and the `prevQuaternions` entry. -/
def runBone (slerp : Quat → Quat → ℚ → Quat) (thr : ℚ) (skel : Skeleton) (b : String) :
    List (Option FKLandmark) → BoneState × Option Quat → BoneState × Option Quat
  | [], st => st
  | jd :: rest, st =>
      runBone slerp thr skel b rest (updateBone slerp thr skel b jd st.1 st.2)

/-- C1 counterexample: the renderer never deletes a bone's `prevQuaternions` entry
when visibility drops below threshold (`AvatarRenderer.tsx` lines 197-202 reset the
bone pose but leave the smoothing map untouched).  After a valid frame with
quaternion (1,0,0,0) and then an invisible frame, the smoothing state still holds
the pre-gap value (it is not "unset"), and the first frame after the gap (new
quaternion (0,1,0,0)) goes through the blended branch: with a concrete
interpolation function the stored post-gap value is the pre-gap quaternion itself,
not the unblended new value the claim requires. -/
theorem c1_counterexample :
    (runBone slerpKeep DEFAULT_VISIBILITY_THRESHOLD testSkel MIXAMO_BONES.HIPS
        [some ⟨1, 0, 0, 0, some 1⟩, some ⟨0, 0, 0, 1, some 0⟩]
        (⟨Quat.one, ⟨1, 1, 1⟩⟩, none)).2 = some ⟨1, 0, 0, 0⟩
    ∧ (runBone slerpKeep DEFAULT_VISIBILITY_THRESHOLD testSkel MIXAMO_BONES.HIPS
        [some ⟨1, 0, 0, 0, some 1⟩, some ⟨0, 0, 0, 1, some 0⟩, some ⟨0, 1, 0, 0, some 1⟩]
        (⟨Quat.one, ⟨1, 1, 1⟩⟩, none)).2 = some ⟨1, 0, 0, 0⟩
    ∧ some (⟨1, 0, 0, 0⟩ : Quat) ≠
        some (correctedTarget MIXAMO_BONES.HIPS ⟨0, 1, 0, 0, some 1⟩) := by
  refine ⟨?_, ?_, ?_⟩ <;>
    norm_num [runBone, updateBone, correctedTarget, smoothedOf, slerpKeep, conjEntry,
      intermediateEntry, INTERMEDIATE_BONE_MAP, WORLD_QUAT_CONJUGATION_BONES,
      LEG_Z_NEGATE_BONES, testSkel, restFallback, Skeleton.hasBone,
      DEFAULT_VISIBILITY_THRESHOLD, SMOOTHING_FACTOR, Quat.mul, Quat.one,
      MIXAMO_BONES.HIPS, MIXAMO_BONES.LEFT_UP_LEG, MIXAMO_BONES.RIGHT_UP_LEG,
      MIXAMO_BONES.LEFT_LEG, MIXAMO_BONES.RIGHT_LEG, MIXAMO_BONES.LEFT_FOOT,
      MIXAMO_BONES.RIGHT_FOOT, MIXAMO_BONES.LEFT_TOE_BASE, MIXAMO_BONES.RIGHT_TOE_BASE,
      MIXAMO_BONES.LEFT_ARM, MIXAMO_BONES.LEFT_FOREARM, MIXAMO_BONES.RIGHT_ARM,
      MIXAMO_BONES.RIGHT_FOREARM, MIXAMO_BONES.LEFT_SHOULDER, MIXAMO_BONES.RIGHT_SHOULDER]

/-- C1 (amended): the per-bone smoothing state is not reset at a visibility gap — an
invalid or low-visibility frame leaves the `prevQuaternions` entry exactly as it was
— and the first valid frame after the gap is SLERP-blended at `SMOOTHING_FACTOR`
with the quaternion stored before the gap; only a bone with no stored quaternion at
all takes its value unblended. -/
theorem c1_gap_state_persists (slerp : Quat → Quat → ℚ → Quat) (thr : ℚ)
    (skel : Skeleton) (b : String) (st : BoneState) (prev : Option Quat) :
    (∀ jd?, jointValid thr jd? = false →
        (updateBone slerp thr skel b jd? st prev).2 = prev)
    ∧ (∀ (jd : FKLandmark) (v : ℚ) (p : Quat), jd.visibility = some v → thr ≤ v →
        prev = some p →
          (updateBone slerp thr skel b (some jd) st prev).2 =
            some (slerp p (correctedTarget b jd) SMOOTHING_FACTOR)) := by
  constructor
  · intro jd? h
    rw [updateBone_invalid slerp thr skel b jd? st prev h]
  · intro jd v p hvis hv hp
    rw [updateBone_valid slerp thr skel b jd v st prev hvis hv]
    subst hp
    rfl

/-- Witness for C1 (amended): an invisible frame leaves the stored quaternion in
place. -/
theorem c1_witness :
    (updateBone slerpKeep DEFAULT_VISIBILITY_THRESHOLD testSkel MIXAMO_BONES.HIPS
        (some ⟨0, 0, 0, 1, some 0⟩) ⟨Quat.one, ⟨1, 1, 1⟩⟩ (some ⟨1, 0, 0, 0⟩)).2 =
      some ⟨1, 0, 0, 0⟩ :=
  (c1_gap_state_persists slerpKeep DEFAULT_VISIBILITY_THRESHOLD testSkel
    MIXAMO_BONES.HIPS ⟨Quat.one, ⟨1, 1, 1⟩⟩ (some ⟨1, 0, 0, 0⟩)).1
    (some ⟨0, 0, 0, 1, some 0⟩) (by norm_num [jointValid, DEFAULT_VISIBILITY_THRESHOLD])

/-- An identity-rotation landmark with visibility `v`: the FK observation a detector
produces for a joint resting exactly at its T-pose. -/
def idLm (v : ℚ) : FKLandmark := ⟨0, 0, 0, 1, some v⟩

/-- FK data placing every joint at its rest orientation with visibility `v`. -/
def constFK (v : ℚ) : String → Option FKLandmark := fun _ => some (idLm v)

/-- Every stored smoothing entry is either unset or the identity. -/
def GoodPrev (s : FrameState) : Prop :=
  ∀ b, s.prevQ b = none ∨ s.prevQ b = some Quat.one

/-- The bone sits at its captured rest rotation. -/
def AtRest (skel : Skeleton) (s : FrameState) (b : String) : Prop :=
  ∀ r, skel.rest b = some r → (s.bones b).quat = r

theorem correctedTarget_id (b : String) (v : ℚ) :
    correctedTarget b (idLm v) = Quat.one := by
  simp [correctedTarget, idLm, Quat.one]

/-- Feeding the identity rotation to a bone whose smoothing state is unset or
identity stores the identity and lands the bone exactly on its rest rotation. -/
theorem updateBone_id (slerp : Quat → Quat → ℚ → Quat) (thr : ℚ) (skel : Skeleton)
    (b : String) (st : BoneState) (prev : Option Quat) (v : ℚ)
    (hslerp : slerp Quat.one Quat.one SMOOTHING_FACTOR = Quat.one)
    (hprev : prev = none ∨ prev = some Quat.one)
    (hunit : ∀ a q, skel.rest a = some q → q.normSq = 1)
    (hv : thr ≤ v) :
    (updateBone slerp thr skel b (some (idLm v)) st prev).2 = some Quat.one
    ∧ ∀ r, skel.rest b = some r →
        (updateBone slerp thr skel b (some (idLm v)) st prev).1.quat = r := by
  have hsm : smoothedOf slerp prev (correctedTarget b (idLm v)) = Quat.one := by
    rw [correctedTarget_id]
    rcases hprev with h | h <;> rw [h]
    · rfl
    · simpa [smoothedOf] using hslerp
  rw [updateBone_valid slerp thr skel b (idLm v) v st prev rfl hv]
  constructor
  · simp [hsm]
  · intro r hr
    cases hce : conjEntry skel b with
    | none => simp [hce, hr, hsm, quat_mul_one]
    | some pa =>
        obtain ⟨p, a⟩ := pa
        obtain ⟨hp, hnorm⟩ := conjEntry_spec skel hunit b p a hce
        subst hp
        simp only [hce, hr, hsm]
        rw [quat_mul_one, quat_conj_mul_of_unit a hnorm, quat_one_mul]

/-- One joint iteration of an identity-pose frame: the smoothing invariant is kept,
bones already at rest stay at rest, and the joint's own bone lands at rest. -/
theorem processJoint_id (slerp : Quat → Quat → ℚ → Quat) (thr v : ℚ) (skel : Skeleton)
    (hslerp : slerp Quat.one Quat.one SMOOTHING_FACTOR = Quat.one)
    (hunit : ∀ a q, skel.rest a = some q → q.normSq = 1)
    (hv : thr ≤ v) (s : FrameState) (j : String) (hg : GoodPrev s) :
    GoodPrev (processJoint slerp thr skel (constFK v) s j)
    ∧ (∀ b, AtRest skel s b → AtRest skel (processJoint slerp thr skel (constFK v) s j) b)
    ∧ (∀ b, JOINT_TO_BONE_MAP j = some b → skel.hasBone b = true →
        AtRest skel (processJoint slerp thr skel (constFK v) s j) b) := by
  cases hm : JOINT_TO_BONE_MAP j with
  | none =>
      simp only [processJoint, hm]
      refine ⟨hg, fun b h => h, ?_⟩
      intro b hb
      cases hb
  | some b0 =>
      by_cases hrig0 : skel.hasBone b0 = true
      · have hid := updateBone_id slerp thr skel b0 (s.bones b0) (s.prevQ b0) v hslerp
          (hg b0) hunit hv
        simp only [processJoint, hm, hrig0, if_true]
        refine ⟨?_, ?_, ?_⟩
        · intro c
          by_cases hc : c = b0
          · subst hc
            right
            simpa [Function.update_same] using hid.1
          · simpa [Function.update_noteq hc] using hg c
        · intro c hc r hr
          by_cases hcb : c = b0
          · subst hcb
            simpa [Function.update_same] using hid.2 r hr
          · simpa [Function.update_noteq hcb] using hc r hr
        · intro b hb hrig r hr
          have hb0 : b0 = b := Option.some.inj hb
          subst hb0
          simpa [Function.update_same] using hid.2 r hr
      · simp only [processJoint, hm, hrig0, if_false]
        refine ⟨hg, fun b h => h, ?_⟩
        intro b hb hrig
        have hb0 : b0 = b := Option.some.inj hb
        subst hb0
        exact absurd hrig hrig0

/-- Folding the joint loop over any joint list with identity-pose data. -/
theorem foldl_joints_id (slerp : Quat → Quat → ℚ → Quat) (thr v : ℚ) (skel : Skeleton)
    (hslerp : slerp Quat.one Quat.one SMOOTHING_FACTOR = Quat.one)
    (hunit : ∀ a q, skel.rest a = some q → q.normSq = 1)
    (hv : thr ≤ v) (l : List String) :
    ∀ s : FrameState, GoodPrev s →
      GoodPrev (l.foldl (processJoint slerp thr skel (constFK v)) s)
      ∧ (∀ b, AtRest skel s b →
          AtRest skel (l.foldl (processJoint slerp thr skel (constFK v)) s) b)
      ∧ (∀ j b, j ∈ l → JOINT_TO_BONE_MAP j = some b → skel.hasBone b = true →
          AtRest skel (l.foldl (processJoint slerp thr skel (constFK v)) s) b) := by
  induction l with
  | nil =>
      intro s hg
      refine ⟨hg, fun b h => h, ?_⟩
      intro j b hj
      cases hj
  | cons j0 l ih =>
      intro s hg
      simp only [List.foldl_cons]
      have hpj := processJoint_id slerp thr v skel hslerp hunit hv s j0 hg
      have hrec := ih (processJoint slerp thr skel (constFK v) s j0) hpj.1
      refine ⟨hrec.1, ?_, ?_⟩
      · intro b hb
        exact hrec.2.1 b (hpj.2.1 b hb)
      · intro j b hj hmap hrig
        rcases List.mem_cons.mp hj with hj1 | hj1
        · subst hj1
          exact hrec.2.1 b (hpj.2.2 b hmap hrig)
        · exact hrec.2.2 j b hj1 hmap hrig

/-- The unmapped-bone reset loop never touches the smoothing map. -/
theorem resetUnmapped_prevQ (skel : Skeleton) : ∀ s : FrameState,
    (resetUnmapped skel s).prevQ = s.prevQ := by
  unfold resetUnmapped
  generalize skel.bones = l
  induction l with
  | nil => intro s; rfl
  | cons c l ih =>
      intro s
      simp only [List.foldl_cons]
      by_cases hc : c ∈ mappedBones
      · rw [show resetStep skel s c = s from by simp [resetStep, hc]]
        exact ih s
      · rw [show resetStep skel s c =
            { s with bones := Function.update s.bones c (restFallback skel c (s.bones c)) }
            from by simp [resetStep, hc]]
        exact ih _

/-- The unmapped-bone reset loop never touches a mapped bone. -/
theorem resetUnmapped_mapped_bone (skel : Skeleton) (b : String) (hb : b ∈ mappedBones) :
    ∀ s : FrameState, (resetUnmapped skel s).bones b = s.bones b := by
  unfold resetUnmapped
  generalize skel.bones = l
  induction l with
  | nil => intro s; rfl
  | cons c l ih =>
      intro s
      simp only [List.foldl_cons]
      by_cases hc : c ∈ mappedBones
      · rw [show resetStep skel s c = s from by simp [resetStep, hc]]
        exact ih s
      · rw [show resetStep skel s c =
            { s with bones := Function.update s.bones c (restFallback skel c (s.bones c)) }
            from by simp [resetStep, hc]]
        rw [ih]
        refine Function.update_noteq (fun h => hc ?_) _ _
        rw [← h]
        exact hb

/-- A full identity-pose frame keeps the smoothing invariant and lands every
rig-present mapped bone at its rest rotation. -/
theorem processFrame_id (slerp : Quat → Quat → ℚ → Quat) (thr v : ℚ) (skel : Skeleton)
    (hslerp : slerp Quat.one Quat.one SMOOTHING_FACTOR = Quat.one)
    (hunit : ∀ a q, skel.rest a = some q → q.normSq = 1)
    (hv : thr ≤ v) (s : FrameState) (hg : GoodPrev s) :
    GoodPrev (processFrame slerp thr skel (constFK v) s)
    ∧ ∀ j b, j ∈ UNIFIED_JOINT_NAMES → JOINT_TO_BONE_MAP j = some b →
        skel.hasBone b = true → AtRest skel (processFrame slerp thr skel (constFK v) s) b := by
  have hf := foldl_joints_id slerp thr v skel hslerp hunit hv UNIFIED_JOINT_NAMES s hg
  unfold processFrame
  constructor
  · intro c
    rw [resetUnmapped_prevQ skel _]
    exact hf.1 c
  · intro j b hj hmap hrig r hr
    have hbm : b ∈ mappedBones := List.mem_filterMap.mpr ⟨j, hj, hmap⟩
    rw [resetUnmapped_mapped_bone skel b hbm _]
    exact hf.2.2 j b hj hmap hrig r hr

/-- Identity-pose frames preserve the smoothing invariant across any run. -/
theorem runFrames_id (slerp : Quat → Quat → ℚ → Quat) (thr v : ℚ) (skel : Skeleton)
    (hslerp : slerp Quat.one Quat.one SMOOTHING_FACTOR = Quat.one)
    (hunit : ∀ a q, skel.rest a = some q → q.normSq = 1)
    (hv : thr ≤ v) :
    ∀ (n : Nat) (s : FrameState), GoodPrev s → 1 ≤ n →
      ∀ j b, j ∈ UNIFIED_JOINT_NAMES → JOINT_TO_BONE_MAP j = some b →
        skel.hasBone b = true →
          AtRest skel (runFrames slerp thr skel (constFK v) n s) b := by
  intro n
  induction n with
  | zero => intro s _ h; cases h
  | succ n ih =>
      intro s hg _
      have hframe := processFrame_id slerp thr v skel hslerp hunit hv s hg
      cases Nat.eq_zero_or_pos n with
      | inl h0 =>
          subst h0
          intro j b hj hmap hrig
          simpa only [runFrames] using hframe.2 j b hj hmap hrig
      | inr hpos =>
          intro j b hj hmap hrig
          simpa only [runFrames] using
            ih (processFrame slerp thr skel (constFK v) s) hframe.1 hpos j b hj hmap hrig

/-- C4: a pose identical to the rest pose — identity rotations with above-threshold
visibility on every joint — is a fixed point of the whole per-bone pipeline: from a
fresh smoothing state, after any positive number of identical frames every mapped
rig bone sits exactly at its rest (T-pose) local rotation.  Holds for every
interpolation function that is reflexive at the identity (true of THREE.js slerp,
whose equal-endpoint early exit returns the input) and every rig with unit rest
rotations. -/
theorem c4_rest_pose_fixed_point (slerp : Quat → Quat → ℚ → Quat) (thr v : ℚ)
    (skel : Skeleton) (n : Nat) (s0 : FrameState) (j b : String) (r : Quat)
    (hslerp : slerp Quat.one Quat.one SMOOTHING_FACTOR = Quat.one)
    (hunit : ∀ a q, skel.rest a = some q → q.normSq = 1)
    (hv : thr ≤ v) (hn : 1 ≤ n) (h0 : ∀ c, s0.prevQ c = none)
    (hj : j ∈ UNIFIED_JOINT_NAMES) (hmap : JOINT_TO_BONE_MAP j = some b)
    (hrig : skel.hasBone b = true) (hr : skel.rest b = some r) :
    ((runFrames slerp thr skel (constFK v) n s0).bones b).quat = r :=
  runFrames_id slerp thr v skel hslerp hunit hv n s0 (fun c => Or.inl (h0 c)) hn
    j b hj hmap hrig r hr

/-- Witness for C4: two identity frames on the concrete rig leave the left shin at
its rest rotation. -/
theorem c4_witness :
    ((runFrames slerpKeep DEFAULT_VISIBILITY_THRESHOLD testSkel (constFK 1) 2
        ⟨fun _ => ⟨⟨1, 2, 3, 4⟩, ⟨1, 1, 1⟩⟩, fun _ => none⟩).bones
      MIXAMO_BONES.LEFT_LEG).quat = Quat.one :=
  c4_rest_pose_fixed_point slerpKeep DEFAULT_VISIBILITY_THRESHOLD 1 testSkel 2
    ⟨fun _ => ⟨⟨1, 2, 3, 4⟩, ⟨1, 1, 1⟩⟩, fun _ => none⟩ "leftKnee"
    MIXAMO_BONES.LEFT_LEG Quat.one rfl
    (fun a q h => by
      injection h with h2
      rw [← h2]
      norm_num [Quat.normSq, Quat.one])
    (by norm_num [DEFAULT_VISIBILITY_THRESHOLD]) (by decide) (fun c => rfl)
    (by decide) rfl (by decide) rfl

end PoseStudio
